import Mathlib

/-!
Verification of the PromptMaster extension's sync/cache core.

A shallow embedding of `modules/feishu-api.js`, `modules/utils.js`,
`modules/storage.js` and the service-worker part of `background.js`.
JavaScript objects become structures, mutable instance fields become
explicit state values threaded through the functions, `async` functions
that perform network I/O take the remote's responses as explicit inputs
and report how many network requests they issued, and thrown errors
become `Except` values.  JS string truthiness (empty string is falsy) is
modelled explicitly.
-/

namespace PromptMaster

/-! ## JavaScript host primitives -/

/-- JS whitespace class used by `String.prototype.trim` (ASCII part). -/
def isWsp (c : Char) : Bool :=
  c = ' ' || c = '\t' || c = '\n' || c = '\r' || c = '\x0b' || c = '\x0c'

/-- Model of `String.prototype.trim`: drop leading and trailing whitespace. -/
def jsTrimData (l : List Char) : List Char :=
  ((l.dropWhile isWsp).reverse.dropWhile isWsp).reverse

/-- Model of `String.prototype.trim` on strings. -/
def jsTrim (s : String) : String :=
  ⟨jsTrimData s.data⟩

/-- Does `pre` start `l`? -/
def isPrefixCh : List Char → List Char → Bool
  | [], _ => true
  | _ :: _, [] => false
  | c :: cs, d :: ds => c = d && isPrefixCh cs ds

/-- Does `sub` occur contiguously in `l`? -/
def containsSub : List Char → List Char → Bool
  | _, [] => true
  | [], _ :: _ => false
  | c :: rest, sub => isPrefixCh sub (c :: rest) || containsSub rest sub

/-- Model of `String.prototype.includes`: `sub` occurs contiguously in `s`
(the empty string occurs in every string). -/
def jsIncludes (s sub : String) : Bool :=
  containsSub s.data sub.data

/-- Model of `String.prototype.split` with a one-character separator
(the only form the source uses: `','` and newline). -/
def splitOnChar (sep : Char) : List Char → List (List Char)
  | [] => [[]]
  | c :: rest =>
      if c = sep then [] :: splitOnChar sep rest
      else
        match splitOnChar sep rest with
        | [] => [[c]]
        | x :: xs => (c :: x) :: xs

/-- Model of `s.split(sep)` on strings. -/
def jsSplit (s : String) (sep : Char) : List String :=
  (splitOnChar sep s.data).map String.mk

/-- Model of `String.prototype.toLowerCase` (ASCII range). -/
def asciiLower (c : Char) : Char :=
  if 'A' ≤ c ∧ c ≤ 'Z' then Char.ofNat (c.toNat + 32) else c

/-- Model of `s.toLowerCase()` on strings. -/
def jsToLower (s : String) : String :=
  ⟨s.data.map asciiLower⟩

/-- JS truthiness of an optional string (`undefined`, `null` and `""` are falsy). -/
def truthyStr : Option String → Bool
  | none => false
  | some s => !s.isEmpty

/-- JS `v || d` for an optional string value `v` and string default `d`. -/
def jsOrStr (v : Option String) (d : String) : String :=
  match v with
  | none => d
  | some s => if s.isEmpty then d else s

/-! Association lists standing in for plain JS objects used as maps
(`cache[key] = v`, `delete cache[key]`, `cache[key]`). -/

/-- Read a key of a JS object. -/
def alookup (k : String) : List (String × β) → Option β
  | [] => none
  | (k₁, v) :: rest => if k₁ = k then some v else alookup k rest

/-- Assignment `obj[k] = v`: overwrite in place, or append a fresh key. -/
def aset (k : String) (v : β) : List (String × β) → List (String × β)
  | [] => [(k, v)]
  | (k₁, v₁) :: rest => if k₁ = k then (k, v) :: rest else (k₁, v₁) :: aset k v rest

/-- Deletion `delete obj[k]`. -/
def aerase (k : String) (m : List (String × β)) : List (String × β) :=
  m.filter (fun p => p.1 != k)

/-! ## modules/config.js -/

/-- Modelled from the spec: `modules/config.js` is imported by every module but
is absent from the sources; only its key names are visible at the use sites.
Its numeric constants (token lifetime, ephemeral-cache TTL, page size, hard
record cap and warning threshold, §4.1–§4.4 of the spec) are therefore
threaded through the model as fields of this structure. -/
structure Config where
  TOKEN_CACHE_DURATION : Int
  CACHE_DURATION : Int
  MAX_PAGE_SIZE : Nat
  MAX_RECORDS_LIMIT : Nat
  MAX_RECORDS_WARNING : Nat
deriving DecidableEq, Repr

/-- Modelled from the spec: the `ERROR_CODES` table of the missing
`modules/config.js`; the five members are exactly the ones the error
taxonomy of spec §7 names and the use sites mention. -/
inductive ErrorCode
  | AUTH_ERROR
  | RATE_LIMIT_ERROR
  | NETWORK_ERROR
  | CONFIG_ERROR
  | UNKNOWN_ERROR
deriving DecidableEq, Repr

/-! ## modules/utils.js -/

/-- Model of `TimeUtils.isExpired(timestamp, duration)` at wall-clock time `now`. -/
def isExpired (timestamp duration now : Int) : Bool :=
  now - timestamp > duration

/-- The error-info object produced by `ErrorHandler.handleError`
(and thrown in place of the original error). -/
structure ErrInfo where
  message : String
  code : ErrorCode
deriving DecidableEq, Repr

/-- The code-reclassification chain of `ErrorHandler.handleError`:
the final code is recomputed from substrings of the message, keeping the
original error's code only when no branch matches. -/
def handleErrorCode (message : String) (code : ErrorCode) : ErrorCode :=
  if jsIncludes message "network" || jsIncludes message "fetch" then .NETWORK_ERROR
  else if jsIncludes message "auth" || jsIncludes message "token" then .AUTH_ERROR
  else if jsIncludes message "config" then .CONFIG_ERROR
  else if jsIncludes message "rate limit" then .RATE_LIMIT_ERROR
  else code

/-- Model of `ErrorHandler.handleError` applied to an error freshly built by
`ErrorHandler.createError message code`. -/
def mkHandledErr (message : String) (code : ErrorCode) : ErrInfo :=
  ⟨message, handleErrorCode message code⟩

/-- The user-supplied Feishu application configuration
(missing entries appear as `""`, as `initConfig` defaults them). -/
structure FeishuConfig where
  appId : String
  appSecret : String
  bitableAppToken : String
  bitableTableId : String
deriving DecidableEq, Repr

/-- The isValid/errors pair returned by `Validator.validateFeishuConfig`. -/
structure ValidationResult where
  isValid : Bool
  errors : List String
deriving DecidableEq, Repr

/-- Model of `Validator.validateAppId`: falsy app id fails; otherwise the
`REGEX.APP_ID` test applies.  The regex lives in the missing
`modules/config.js`, so it is threaded as the predicate `appIdTest`
(the error message documents it as a `cli_`-prefix check). -/
def validateAppId (appIdTest : String → Bool) (appId : String) : Bool :=
  if appId.isEmpty then false else appIdTest appId

/-- Model of `Validator.validateFeishuConfig`. -/
def validateFeishuConfig (appIdTest : String → Bool) (fc : FeishuConfig) : ValidationResult :=
  let e₁ : List String :=
    if fc.appId.isEmpty then ["App ID 不能为空"]
    else if !validateAppId appIdTest fc.appId then ["App ID 格式不正确，应以 \"cli_\" 开头"]
    else []
  let e₂ : List String :=
    if fc.appSecret.isEmpty then ["App Secret 不能为空"] else []
  let errors := e₁ ++ e₂
  ⟨errors.isEmpty, errors⟩

/-! ## modules/feishu-api.js — data shapes -/

/-- Mutable instance state of `FeishuApiService`
(`this.accessToken`, `this.tokenExpiry`). -/
structure ServiceState where
  accessToken : Option String
  tokenExpiry : Int
deriving DecidableEq, Repr

/-- A response of the remote auth endpoint
(`data.code`, `data.msg`, `data.data.tenant_access_token`). -/
structure AuthResponse where
  code : Int
  msg : String
  tenant_access_token : Option String
deriving DecidableEq, Repr

/-- A value that may sit in a heterogeneous raw field such as `fields.tags`
or `fields.examples`: absent/null, a string, an array (elements modelled as
strings), or some other JS value. -/
inductive RawVal
  | undef
  | str (s : String)
  | arr (xs : List String)
  | other
deriving DecidableEq, Repr

/-- An element of a normalized `variables` list: either a bare string
(produced by the comma-split fallback) or a structured variable object. -/
inductive VarValue
  | strV (s : String)
  | objV (name description defaultValue : String) (required : Bool)
deriving DecidableEq, Repr

/-- The raw `fields.variables` value. -/
inductive VarsVal
  | undef
  | str (s : String)
  | arr (xs : List VarValue)
  | other
deriving DecidableEq, Repr

/-- A raw record of the remote list endpoint (`item.record_id` plus the
`fields` map; absent fields are `none`/`undef`).  `priority` carries the
result of `parseInt(fields.priority)` when that parse yields a number. -/
structure RawItem where
  record_id : String
  prompt : Option String
  category : Option String
  tags : RawVal
  description : Option String
  usage : Option String
  «variables» : VarsVal
  examples : RawVal
  priority : Option Int
  is_active : Option Bool
  created_time : Option String
  updated_time : Option String
deriving DecidableEq, Repr

/-- A response of the remote list endpoint (`data.code`, `data.msg`,
`data.data.items`, `data.data.page_token`, `data.data.total`). -/
structure ApiResponse where
  code : Int
  msg : String
  items : List RawItem
  page_token : Option String
  total : Option Nat
deriving DecidableEq, Repr

/-- The canonical prompt record built by `processPromptData`. -/
structure Prompt where
  id : String
  prompt : String
  category : String
  tags : List String
  description : String
  usage : String
  «variables» : List VarValue
  examples : List String
  priority : Int
  isActive : Bool
  createdAt : String
  updatedAt : String
deriving DecidableEq, Repr

/-- The host's `JSON.parse`, consulted by the string branches of
`parseVariables` and `parseExamples`; `none` models a parse that throws. -/
structure Host where
  jsonParseVars : String → Option (List VarValue)
  jsonParseExamples : String → Option (List String)

/-- A concrete host on which `JSON.parse` always throws
(used to instantiate closed statements; the branches consulting it are
unreached there). -/
def strictHost : Host :=
  ⟨fun _ => none, fun _ => none⟩

/-! ## modules/feishu-api.js — normalization -/

/-- Model of `FeishuApiService.parseTags`: falsy input gives `[]`, an array is
returned as-is, a string is comma-split with each part trimmed and empty
parts dropped, anything else gives `[]`. -/
def parseTags : RawVal → List String
  | .undef => []
  | .arr xs => xs
  | .str s =>
      if s.isEmpty then []
      else ((jsSplit s ',').map jsTrim).filter (fun t => !t.isEmpty)
  | .other => []

/-- Model of `FeishuApiService.parseVariables`: falsy input gives `[]`, an array is
returned as-is, a string is `JSON.parse`d with a comma-split fallback when
the parse throws, anything else gives `[]`. -/
def parseVariables (jsonParseVars : String → Option (List VarValue)) : VarsVal → List VarValue
  | .undef => []
  | .arr xs => xs
  | .str s =>
      if s.isEmpty then []
      else
        match jsonParseVars s with
        | some v => v
        | none => (((jsSplit s ',').map jsTrim).filter (fun t => !t.isEmpty)).map .strV
  | .other => []

/-- Model of `FeishuApiService.parseExamples`: like `parseVariables` but the
fallback splits on newlines. -/
def parseExamples (jsonParseExamples : String → Option (List String)) : RawVal → List String
  | .undef => []
  | .arr xs => xs
  | .str s =>
      if s.isEmpty then []
      else
        match jsonParseExamples s with
        | some v => v
        | none => ((jsSplit s '\n').map jsTrim).filter (fun t => !t.isEmpty)
  | .other => []

/-- The per-item mapping inside `processPromptData`. -/
def normalizeItem (h : Host) (item : RawItem) : Prompt where
  id := item.record_id
  prompt := jsOrStr item.prompt ""
  category := jsOrStr item.category "其他"
  tags := parseTags item.tags
  description := jsOrStr item.description ""
  usage := jsOrStr item.usage ""
  «variables» := parseVariables h.jsonParseVars item.«variables»
  examples := parseExamples h.jsonParseExamples item.examples
  priority := item.priority.getD 0
  isActive := item.is_active != some false
  createdAt := jsOrStr item.created_time ""
  updatedAt := jsOrStr item.updated_time ""

/-- Model of `FeishuApiService.processPromptData`: map every raw item to a `Prompt`
and drop the records whose `prompt` string is falsy (empty). -/
def processPromptData (h : Host) (items : List RawItem) : List Prompt :=
  (items.map (normalizeItem h)).filter (fun p => !p.prompt.isEmpty)

/-! ## modules/feishu-api.js — token and requests

Each function returns its updated `ServiceState`, the number of network
requests it issued to the auth endpoint, and its result.  The auth
endpoint's reply (a function of the configured credentials sent in the
request body) is passed in as `authResp`. -/

/-- The acquisition path of `getAccessToken` (cache miss): one network
request; on `code == 0` with a truthy token the token is cached with
`tokenExpiry = Date.now()`, otherwise an `AUTH_ERROR` is thrown through
`ErrorHandler.handleError`. -/
def acquireToken (now : Int) (authResp : AuthResponse) (st : ServiceState) :
    ServiceState × Nat × Except ErrInfo String :=
  match authResp.tenant_access_token with
  | some tok =>
      if authResp.code = 0 ∧ ¬tok.isEmpty then
        (⟨some tok, now⟩, 1, .ok tok)
      else
        (st, 1, .error (mkHandledErr ("获取访问令牌失败: " ++ authResp.msg) .AUTH_ERROR))
  | none =>
      (st, 1, .error (mkHandledErr ("获取访问令牌失败: " ++ authResp.msg) .AUTH_ERROR))

/-- Model of `FeishuApiService.getAccessToken`: a cached, truthy, unexpired token is
returned without touching the network; otherwise the auth endpoint is
called.  `fc` is the configured credentials sent in the request body; the
function itself never inspects them. -/
def getAccessToken (cfg : Config) (_fc : FeishuConfig) (now : Int)
    (authResp : AuthResponse) (st : ServiceState) :
    ServiceState × Nat × Except ErrInfo String :=
  match st.accessToken with
  | some tok =>
      if ¬tok.isEmpty ∧ ¬(isExpired st.tokenExpiry cfg.TOKEN_CACHE_DURATION now) then
        (st, 0, .ok tok)
      else acquireToken now authResp st
  | none => acquireToken now authResp st

/-- The response handling of `FeishuApiService.apiRequest` once the fetch
resolved: `code == 0` succeeds; the token-invalid codes 99991663/99991668
clear the cached token and raise `AUTH_ERROR`; 99991661 raises
`RATE_LIMIT_ERROR`; anything else raises `UNKNOWN_ERROR`.  Every raised
error passes through `ErrorHandler.handleError`. -/
def apiRequestCore (st : ServiceState) (resp : ApiResponse) :
    ServiceState × Except ErrInfo ApiResponse :=
  if resp.code = 0 then (st, .ok resp)
  else if resp.code = 99991663 ∨ resp.code = 99991668 then
    (⟨none, 0⟩, .error (mkHandledErr ("访问令牌无效: " ++ resp.msg) .AUTH_ERROR))
  else if resp.code = 99991661 then
    (st, .error (mkHandledErr ("请求频率过高: " ++ resp.msg) .RATE_LIMIT_ERROR))
  else
    (st, .error (mkHandledErr ("API请求失败: " ++ resp.msg) .UNKNOWN_ERROR))

/-- Model of `FeishuApiService.apiRequest`: acquire a token (outside the try/catch),
then perform the request whose remote reply is `pageResp`. -/
def apiRequest (cfg : Config) (fc : FeishuConfig) (now : Int)
    (authResp : AuthResponse) (st : ServiceState) (pageResp : ApiResponse) :
    ServiceState × Nat × Except ErrInfo ApiResponse :=
  match getAccessToken cfg fc now authResp st with
  | (st₁, n, .error e) => (st₁, n, .error e)
  | (st₁, n, .ok _) =>
      let (st₂, r) := apiRequestCore st₁ pageResp
      (st₂, n, r)

/-- The payload of a successful `getAllPrompts`
(`lastRefreshTime`, a wall-clock string, is outside the model). -/
structure FetchData where
  prompts : List Prompt
  total : Nat
deriving DecidableEq, Repr

/-- The `{success, data | error}` result of `getAllPrompts`. -/
inductive FetchResult
  | ok (data : FetchData)
  | err (message : String)
deriving DecidableEq, Repr

/-- The do/while page loop of `FeishuApiService.getAllPrompts`.  `pages`
lists the successive replies of the list endpoint; an exhausted list while
the loop still wants a page models a rejected fetch ("Failed to fetch").
After a successful page the items are normalized and appended; the loop
stops once `maxRecords` is reached or the reply carries no truthy
`page_token`. -/
def getAllPromptsGo (cfg : Config) (h : Host) (fc : FeishuConfig) (now : Int)
    (authResp : AuthResponse) (maxRecords : Nat) :
    ServiceState → List ApiResponse → List Prompt → Nat →
    ServiceState × Nat × FetchResult
  | st, [], _acc, n =>
      (match getAccessToken cfg fc now authResp st with
       | (st₁, k, .error e) => (st₁, n + k, .err e.message)
       | (st₁, k, .ok _) => (st₁, n + k, .err "Failed to fetch"))
  | st, p :: rest, acc, n =>
      match apiRequest cfg fc now authResp st p with
      | (st₁, k, .error e) => (st₁, n + k, .err e.message)
      | (st₁, k, .ok resp) =>
          let acc₂ := acc ++ processPromptData h resp.items
          if maxRecords ≤ acc₂.length then
            (st₁, n + k, .ok ⟨acc₂, acc₂.length⟩)
          else if truthyStr resp.page_token then
            getAllPromptsGo cfg h fc now authResp maxRecords st₁ rest acc₂ (n + k)
          else
            (st₁, n + k, .ok ⟨acc₂, acc₂.length⟩)

/-- Model of `FeishuApiService.getAllPrompts` with an explicit `maxRecords`
(the source defaults it to `CONFIG.MAX_RECORDS_LIMIT`). -/
def getAllPrompts (cfg : Config) (h : Host) (fc : FeishuConfig) (now : Int)
    (authResp : AuthResponse) (st : ServiceState) (pages : List ApiResponse)
    (maxRecords : Nat) : ServiceState × Nat × FetchResult :=
  getAllPromptsGo cfg h fc now authResp maxRecords st pages [] 0

/-- The result of `FeishuApiService.testConnection`. -/
inductive ConnOutcome
  | configInvalid (errors : List String)
  | connected (total : Nat)
  | failed (message : String) (code : ErrorCode)
deriving DecidableEq, Repr

/-- Model of `FeishuApiService.testConnection`: validate the configuration first and
return a `CONFIG_ERROR`-style result with no network traffic when it is
invalid; otherwise acquire a token and fetch one page. -/
def testConnection (cfg : Config) (appIdTest : String → Bool) (fc : FeishuConfig)
    (now : Int) (authResp : AuthResponse) (pageResp : ApiResponse)
    (st : ServiceState) : ServiceState × Nat × ConnOutcome :=
  let v := validateFeishuConfig appIdTest fc
  if !v.isValid then (st, 0, .configInvalid v.errors)
  else
    match getAccessToken cfg fc now authResp st with
    | (st₁, n, .error e) => (st₁, n, .failed e.message e.code)
    | (st₁, n, .ok _) =>
        match apiRequest cfg fc now authResp st₁ pageResp with
        | (st₂, k, .error e) => (st₂, n + k, .failed e.message e.code)
        | (st₂, k, .ok resp) => (st₂, n + k, .connected (resp.total.getD 0))

/-! ## modules/storage.js — ephemeral cache tier -/

/-- One entry of the `StorageManager` ephemeral cache: payload plus the
write timestamp (`{data, timestamp: Date.now()}`). -/
structure CacheEntryV (α : Type) where
  data : α
  timestamp : Int
deriving DecidableEq, Repr

/-- The state `setCache`/`getCache` act on: the in-memory copy held in
`this.cache.get('cache')` and the durable copy persisted under
`CONFIG.STORAGE_KEYS.CACHE` in `chrome.storage.sync`
(`none` when the key was never written). -/
structure CacheState (α : Type) where
  mem : List (String × CacheEntryV α)
  durable : Option (List (String × CacheEntryV α))
deriving DecidableEq, Repr

/-- Model of `StorageManager.setCache`: stamp the entry with `Date.now()`, write the
whole cache object to durable storage, then refresh the in-memory copy. -/
def setCache (st : CacheState α) (key : String) (data : α) (now : Int) : CacheState α :=
  let cache := aset key ⟨data, now⟩ st.mem
  ⟨cache, some cache⟩

/-- Model of `StorageManager.getCache`: read the in-memory copy; a missing entry is
`null`; an expired entry is deleted from the in-memory copy and `null` is
returned; otherwise the payload is returned. -/
def getCache (cfg : Config) (now : Int) (st : CacheState α) (key : String) :
    CacheState α × Option α :=
  match alookup key st.mem with
  | none => (st, none)
  | some e =>
      if isExpired e.timestamp cfg.CACHE_DURATION now then
        (⟨aerase key st.mem, st.durable⟩, none)
      else (st, some e.data)

/-! ## modules/storage.js — recent prompts -/

/-- An entry of the recent-prompts list written by `addRecentPrompt`. -/
structure RecentEntry where
  id : String
  prompt : String
  category : String
  usedAt : Int
deriving DecidableEq, Repr

/-- Model of `StorageManager.addRecentPrompt` acting on the stored list: drop
entries with the same id, unshift the new entry, and keep the first
`settings.maxRecentItems`. -/
def addRecentPrompt (maxRecentItems : Nat) (now : Int)
    (recent : List RecentEntry) (pid pprompt pcategory : String) : List RecentEntry :=
  (⟨pid, pprompt, pcategory, now⟩ :: recent.filter (fun item => item.id != pid)).take
    maxRecentItems

/-! ## background.js — manual refresh and cache search -/

/-- The object `savePermanentPrompts` stores under
`CONFIG.STORAGE_KEYS.PERMANENT_PROMPTS` in `chrome.storage.local`. -/
structure PermanentData where
  prompts : List Prompt
  count : Nat
  lastUpdated : Int
deriving DecidableEq, Repr

/-- The storage state the service-worker handlers act on. -/
structure BgState where
  permanent : Option PermanentData
  recent : List RecentEntry
  lastRefreshTime : Option Int
deriving DecidableEq, Repr

/-- An element of the heterogeneous array `searchInCache` returns:
either a snapshot record or a recent-use entry. -/
inductive Hit
  | fromPermanent (p : Prompt)
  | fromRecent (r : RecentEntry)
deriving DecidableEq, Repr

/-- The keyword test of `searchInCache`: a falsy keyword filters nothing,
otherwise a case-insensitive substring match on the prompt text. -/
def matchesKeyword (kw : Option String) (text : String) : Bool :=
  match kw with
  | none => true
  | some k => if k.isEmpty then true else jsIncludes (jsToLower text) (jsToLower k)

/-- The category test of `searchInCache`: a falsy filter value passes
everything, otherwise strict equality. -/
def matchesCategory (fcat : Option String) (category : String) : Bool :=
  match fcat with
  | none => true
  | some c => if c.isEmpty then true else category = c

/-- Model of `background.js` `searchInCache`: filter the permanent snapshot (when
one is stored), take the first `maxResults`, then fill the remainder from
the filtered recent list. -/
def searchInCache (st : BgState) (kw : Option String) (fcat : Option String)
    (maxResults : Nat) : List Hit :=
  let permHits : List Hit :=
    match st.permanent with
    | none => []
    | some d =>
        let filtered := d.prompts.filter (fun p =>
          matchesKeyword kw p.prompt && matchesCategory fcat p.category)
        (filtered.take maxResults).map .fromPermanent
  let recHits : List Hit :=
    if st.recent.length > 0 then
      let filtered := st.recent.filter (fun r => matchesKeyword kw r.prompt)
      (filtered.take (maxResults - permHits.length)).map .fromRecent
    else []
  permHits ++ recHits

/-- The `{success, data | error}` result of `handleManualRefresh`. -/
inductive RefreshOutcome
  | ok (prompts : List Prompt) (total : Nat)
  | fail (error : String)
deriving DecidableEq, Repr

/-- Model of `background.js` `handleManualRefresh`: on a successful fetch, overwrite
the permanent snapshot and the last-refresh time and report success; on a
failed fetch, leave storage untouched and report failure. -/
def handleManualRefresh (st : BgState) (fetch : FetchResult) (now : Int) :
    BgState × RefreshOutcome :=
  match fetch with
  | .ok d =>
      ({ st with
          permanent := some ⟨d.prompts, d.prompts.length, now⟩
          lastRefreshTime := some now },
       .ok d.prompts d.total)
  | .err m => (st, .fail m)

/-! ## Spec-side definitions (for refinement comparison only)

The claims C2 and C4 assert behaviour the spec describes in its own words
(a `truncated` flag, `\x7b\x7bname\x7d\x7d` placeholder extraction).  The
definitions below follow the SPEC's wording, to be compared against the
source-derived definitions above. -/

/-- Read one spec-style identifier (a nonempty run of non-`\x7d`
characters terminated by `\x7d\x7d`); returns the identifier and the rest
of the input past the closing braces. -/
def findClose : List Char → List Char → Option (String × List Char)
  | [], _ => none
  | '\x7d' :: rest, acc =>
      match rest with
      | '\x7d' :: rest₂ => if acc.isEmpty then none else some (⟨acc.reverse⟩, rest₂)
      | _ => none
  | c :: rest, acc => findClose rest (c :: acc)

/-- Fuelled scan for `\x7b\x7b identifier \x7d\x7d` occurrences,
left to right.  The fuel only needs to exceed the input length. -/
def scanVarNamesAux : Nat → List Char → List String
  | 0, _ => []
  | _ + 1, [] => []
  | fuel + 1, cs =>
      match cs with
      | '\x7b' :: '\x7b' :: rest =>
          (match findClose rest [] with
           | some (name, rest₂) => name :: scanVarNamesAux fuel rest₂
           | none => scanVarNamesAux fuel rest)
      | _ :: rest => scanVarNamesAux fuel rest
      | [] => []

/-- Keep the first occurrence of each name, preserving order. -/
def dedupFirst : List String → List String → List String
  | [], _ => []
  | n :: rest, seen =>
      if n ∈ seen then dedupFirst rest seen
      else n :: dedupFirst rest (n :: seen)

/-- Modelled from the spec: §4.3 variable extraction — scan `content` for
placeholder occurrences, trim each identifier, keep first occurrences in
order, and build `{name, description:"", defaultValue:"", required:true}`
objects.  This is the spec's described behaviour; the source has no
counterpart (`parseVariables` reads a remote field instead). -/
def extractVariablesSpec (content : String) : List VarValue :=
  let names := (scanVarNamesAux (content.data.length + 1) content.data).map jsTrim
  (dedupFirst names []).map (fun n => .objV n "" "" true)

/-! ## Helper lemmas -/

theorem jsTrimData_eq_rdropWhile (l : List Char) :
    jsTrimData l = List.rdropWhile isWsp (List.dropWhile isWsp l) := rfl

theorem dropWhile_jsTrimData (l : List Char) :
    List.dropWhile isWsp (jsTrimData l) = jsTrimData l := by
  rw [jsTrimData_eq_rdropWhile, List.dropWhile_eq_self_iff]
  intro hl
  have hpre : List.rdropWhile isWsp (List.dropWhile isWsp l) <+: List.dropWhile isWsp l :=
    List.rdropWhile_prefix _ _
  rw [hpre.get_eq]
  exact List.dropWhile_get_zero_not _ _ _

theorem jsTrimData_idem (l : List Char) : jsTrimData (jsTrimData l) = jsTrimData l := by
  conv_lhs => rw [jsTrimData_eq_rdropWhile, dropWhile_jsTrimData,
    jsTrimData_eq_rdropWhile, List.rdropWhile_idempotent]
  exact (jsTrimData_eq_rdropWhile l).symm

theorem jsTrim_idem (s : String) : jsTrim (jsTrim s) = jsTrim s := by
  show String.mk (jsTrimData (jsTrimData s.data)) = String.mk (jsTrimData s.data)
  rw [jsTrimData_idem]

theorem isEmpty_false_of_ne (s : String) (hs : s ≠ "") : s.isEmpty = false := by
  cases hb : s.isEmpty
  · rfl
  · exact absurd ((String.isEmpty_iff s).mp hb) hs

theorem getAccessToken_cached (cfg : Config) (fc : FeishuConfig) (now : Int)
    (authResp : AuthResponse) (tok : String) (tokenE : Int)
    (htok : tok ≠ "")
    (hval : isExpired tokenE cfg.TOKEN_CACHE_DURATION now = false) :
    getAccessToken cfg fc now authResp ⟨some tok, tokenE⟩
      = (⟨some tok, tokenE⟩, 0, .ok tok) := by
  simp [getAccessToken, isEmpty_false_of_ne tok htok, hval]

theorem alookup_aset (k : String) (v : β) (m : List (String × β)) :
    alookup k (aset k v m) = some v := by
  induction m with
  | nil => simp [aset, alookup]
  | cons hd tl ih =>
      by_cases hk : hd.1 = k
      · simp [aset, alookup, hk]
      · simp only [aset, hk, if_false, alookup, ih]

theorem alookup_aerase (k : String) (m : List (String × β)) :
    alookup k (aerase k m) = none := by
  induction m with
  | nil => simp [aerase, alookup]
  | cons hd tl ih =>
      by_cases hk : hd.1 = k
      · simpa [aerase, hk] using ih
      · simpa [aerase, alookup, hk, bne_iff_ne, List.filter_cons] using ih

/-! ## Concrete fixtures -/

/-- A concrete instantiation of the configured constants
(token lifetime 2h, cache TTL 5min, the spec's cap values). -/
def cfgW : Config := ⟨7200000, 300000, 500, 20000, 18000⟩

/-- A concrete Feishu application configuration. -/
def fcW : FeishuConfig := ⟨"cli_a1", "s3cret", "bT", "tT"⟩

/-- A successful auth-endpoint reply. -/
def authOk : AuthResponse := ⟨0, "ok", some "tok2"⟩

/-- A raw item carrying only a record id and a prompt body. -/
def itemP (rid content : String) : RawItem :=
  ⟨rid, some content, none, .undef, none, none, .undef, .undef, none, none, none, none⟩

/-- A successful final page holding one usable record. -/
def okPage1 : ApiResponse := ⟨0, "ok", [itemP "r1" "p1"], none, some 1⟩

/-- A token-invalid reply of the list endpoint. -/
def badPage : ApiResponse := ⟨99991663, "invalid", [], none, none⟩

/-- A successful page with three usable records and a continuation token. -/
def page3 : ApiResponse :=
  ⟨0, "ok", [itemP "a" "pa", itemP "b" "pb", itemP "c" "pc"], some "t", some 3⟩

/-! ## C1 — token-invalid handling during the full fetch -/

/-- C1 (counterexample): with a valid cached token, a first page reply with
the token-invalid code 99991663 and a second reply that would succeed,
`getAllPrompts` reports failure after the first reply — the result is
unchanged when the second reply is removed (no page is retried, no token
re-acquired: 0 auth calls), instead of the retried success the claim
predicts. -/
theorem c1_counterexample :
    getAllPrompts cfgW strictHost fcW 0 authOk ⟨some "tok", 0⟩ [badPage, okPage1] 20000
      = (⟨none, 0⟩, 0, .err ("访问令牌无效: " ++ "invalid")) ∧
    getAllPrompts cfgW strictHost fcW 0 authOk ⟨some "tok", 0⟩ [badPage] 20000
      = getAllPrompts cfgW strictHost fcW 0 authOk ⟨some "tok", 0⟩ [badPage, okPage1] 20000 ∧
    FetchResult.err ("访问令牌无效: " ++ "invalid")
      ≠ .ok ⟨processPromptData strictHost okPage1.items, 1⟩ :=
  ⟨rfl, rfl, by decide⟩

/-- C1 (amended): when a page request comes back with a token-invalid code
(99991663 or 99991668), `apiRequest` clears the cached token and raises
`AUTH_ERROR`, and `getAllPrompts` performs no retry at all: it immediately
reports failure with that error's message, consuming no further pages and
issuing no re-authentication request. -/
theorem c1_invalidate_no_retry (cfg : Config) (h : Host) (fc : FeishuConfig)
    (now : Int) (authResp : AuthResponse) (tok : String) (tokenE : Int)
    (resp : ApiResponse) (rest : List ApiResponse) (maxRecords : Nat)
    (htok : tok ≠ "")
    (hval : isExpired tokenE cfg.TOKEN_CACHE_DURATION now = false)
    (hcode : resp.code = 99991663 ∨ resp.code = 99991668)
    (hn₁ : jsIncludes ("访问令牌无效: " ++ resp.msg) "network" = false)
    (hn₂ : jsIncludes ("访问令牌无效: " ++ resp.msg) "fetch" = false)
    (hn₃ : jsIncludes ("访问令牌无效: " ++ resp.msg) "config" = false)
    (hn₄ : jsIncludes ("访问令牌无效: " ++ resp.msg) "rate limit" = false) :
    getAllPrompts cfg h fc now authResp ⟨some tok, tokenE⟩ (resp :: rest) maxRecords
      = (⟨none, 0⟩, 0, .err ("访问令牌无效: " ++ resp.msg)) ∧
    (apiRequestCore ⟨some tok, tokenE⟩ resp).2
      = .error ⟨"访问令牌无效: " ++ resp.msg, .AUTH_ERROR⟩ := by
  have hcode₀ : ¬resp.code = 0 := by rcases hcode with h₁ | h₁ <;> omega
  have hauth : handleErrorCode ("访问令牌无效: " ++ resp.msg) .AUTH_ERROR = .AUTH_ERROR := by
    unfold handleErrorCode
    rw [hn₁, hn₂, hn₃, hn₄]
    cases hb : (jsIncludes ("访问令牌无效: " ++ resp.msg) "auth"
        || jsIncludes ("访问令牌无效: " ++ resp.msg) "token") <;> simp [hb]
  have hcore : apiRequestCore ⟨some tok, tokenE⟩ resp
      = (⟨none, 0⟩, .error ⟨"访问令牌无效: " ++ resp.msg, .AUTH_ERROR⟩) := by
    unfold apiRequestCore mkHandledErr
    rw [if_neg hcode₀, if_pos hcode, hauth]
  refine ⟨?_, by rw [hcore]⟩
  have hget := getAccessToken_cached cfg fc now authResp tok tokenE htok hval
  unfold getAllPrompts getAllPromptsGo apiRequest
  rw [hget]
  simp [hcore]

/-- C1 witness. -/
theorem c1_invalidate_no_retry_witness :
    getAllPrompts cfgW strictHost fcW 10 authOk ⟨some "tokW", 3⟩ [badPage, okPage1] 100
      = (⟨none, 0⟩, 0, .err ("访问令牌无效: " ++ "invalid")) ∧
    (apiRequestCore ⟨some "tokW", 3⟩ badPage).2
      = .error ⟨"访问令牌无效: " ++ "invalid", .AUTH_ERROR⟩ :=
  c1_invalidate_no_retry cfgW strictHost fcW 10 authOk "tokW" 3 badPage [okPage1] 100
    (by decide) (by decide) (Or.inl rfl) (by decide) (by decide) (by decide) (by decide)

/-! ## C2 — the hard record cap -/

/-- C2 (counterexample): with 4 records available (3 on the first page, a
continuation token, and 1 more on the next page) and a hard cap of 2,
`getAllPrompts` succeeds with 3 records — more than the cap — and its
result carries no truncated flag of any kind; the claim's "exactly the
cap's number of records together with truncated: true" is false. -/
theorem c2_counterexample :
    (getAllPrompts cfgW strictHost fcW 0 authOk ⟨some "tok", 0⟩ [page3, okPage1] 2).2.2
      = .ok ⟨processPromptData strictHost page3.items, 3⟩ ∧
    (processPromptData strictHost page3.items).length = 3 ∧ (3 : Nat) ≠ 2 :=
  ⟨rfl, rfl, by decide⟩

/-- One unfolding step of the page loop (definitional). -/
theorem getAllPromptsGo_cons (cfg : Config) (h : Host) (fc : FeishuConfig)
    (now : Int) (authResp : AuthResponse) (maxRecords : Nat) (st : ServiceState)
    (resp : ApiResponse) (rest : List ApiResponse) (acc : List Prompt) (n : Nat) :
    getAllPromptsGo cfg h fc now authResp maxRecords st (resp :: rest) acc n
      = match apiRequest cfg fc now authResp st resp with
        | (st₁, k, .error e) => (st₁, n + k, .err e.message)
        | (st₁, k, .ok r) =>
            let acc₂ := acc ++ processPromptData h r.items
            if maxRecords ≤ acc₂.length then
              (st₁, n + k, .ok ⟨acc₂, acc₂.length⟩)
            else if truthyStr r.page_token then
              getAllPromptsGo cfg h fc now authResp maxRecords st₁ rest acc₂ (n + k)
            else (st₁, n + k, .ok ⟨acc₂, acc₂.length⟩) := rfl

/-- C2 (amended): the page loop of `getAllPrompts` keeps a running total
across pages.  For any previously accumulated records `acc`: while the
running total (prior accumulation plus the current page) stays below the
cap and the reply carries a continuation token, the loop continues with the
page's normalized records appended; once the running total reaches the cap,
it stops requesting pages — the result does not depend on any later reply —
and returns success with everything accumulated, the final page kept whole
(so the count may exceed the cap) and no `truncated` flag in the result;
the truncation is not reported as an error. -/
theorem c2_cap_stop (cfg : Config) (h : Host) (fc : FeishuConfig) (now : Int)
    (authResp : AuthResponse) (tok : String) (tokenE : Int) (resp : ApiResponse)
    (rest : List ApiResponse) (maxRecords : Nat) (acc : List Prompt) (n : Nat)
    (htok : tok ≠ "")
    (hval : isExpired tokenE cfg.TOKEN_CACHE_DURATION now = false)
    (hcode : resp.code = 0) :
    (maxRecords ≤ (acc ++ processPromptData h resp.items).length →
      getAllPromptsGo cfg h fc now authResp maxRecords ⟨some tok, tokenE⟩
          (resp :: rest) acc n
        = (⟨some tok, tokenE⟩, n,
           .ok ⟨acc ++ processPromptData h resp.items,
                (acc ++ processPromptData h resp.items).length⟩)) ∧
    ((acc ++ processPromptData h resp.items).length < maxRecords →
      truthyStr resp.page_token = true →
      getAllPromptsGo cfg h fc now authResp maxRecords ⟨some tok, tokenE⟩
          (resp :: rest) acc n
        = getAllPromptsGo cfg h fc now authResp maxRecords ⟨some tok, tokenE⟩
            rest (acc ++ processPromptData h resp.items) n) := by
  have hget := getAccessToken_cached cfg fc now authResp tok tokenE htok hval
  have hcore : apiRequestCore ⟨some tok, tokenE⟩ resp = (⟨some tok, tokenE⟩, .ok resp) := by
    unfold apiRequestCore
    rw [if_pos hcode]
  have hreq : apiRequest cfg fc now authResp ⟨some tok, tokenE⟩ resp
      = (⟨some tok, tokenE⟩, 0, .ok resp) := by
    unfold apiRequest
    rw [hget]
    simp [hcore]
  have hstep : getAllPromptsGo cfg h fc now authResp maxRecords ⟨some tok, tokenE⟩
      (resp :: rest) acc n
      = (if maxRecords ≤ (acc ++ processPromptData h resp.items).length then
          (⟨some tok, tokenE⟩, n + 0,
           .ok ⟨acc ++ processPromptData h resp.items,
                (acc ++ processPromptData h resp.items).length⟩)
        else if truthyStr resp.page_token then
          getAllPromptsGo cfg h fc now authResp maxRecords ⟨some tok, tokenE⟩
            rest (acc ++ processPromptData h resp.items) (n + 0)
        else
          (⟨some tok, tokenE⟩, n + 0,
           .ok ⟨acc ++ processPromptData h resp.items,
                (acc ++ processPromptData h resp.items).length⟩)) := by
    rw [getAllPromptsGo_cons, hreq]
  constructor
  · intro hcap
    rw [hstep, if_pos hcap]
    rfl
  · intro hlt htoken
    rw [hstep, if_neg (Nat.not_le.mpr hlt), if_pos htoken]
    rfl

/-- C2 witness: a cap of 5 against two successful pages of 3 records each —
each page alone is below the cap, the running total crosses it on the
second page, and the third reply is never consumed; the result is success
with all 6 accumulated records. -/
theorem c2_cap_stop_witness :
    getAllPrompts cfgW strictHost fcW 0 authOk ⟨some "tok", 0⟩ [page3, page3, okPage1] 5
      = (⟨some "tok", 0⟩, 0,
         .ok ⟨processPromptData strictHost page3.items
                ++ processPromptData strictHost page3.items,
              (processPromptData strictHost page3.items
                ++ processPromptData strictHost page3.items).length⟩) ∧
    (processPromptData strictHost page3.items).length = 3 ∧
    (3 : Nat) < 5 ∧
    (processPromptData strictHost page3.items
      ++ processPromptData strictHost page3.items).length = 6 := by
  have h₁ := (c2_cap_stop cfgW strictHost fcW 0 authOk "tok" 0 page3 [page3, okPage1]
    5 [] 0 (by decide) (by decide) rfl).2 (by decide) (by decide)
  have h₂ := (c2_cap_stop cfgW strictHost fcW 0 authOk "tok" 0 page3 [okPage1]
    5 (processPromptData strictHost page3.items) 0 (by decide) (by decide) rfl).1
    (by decide)
  rw [List.nil_append] at h₁
  exact ⟨by rw [getAllPrompts, h₁, h₂], rfl, by decide, rfl⟩

/-! ## C3 — discarding records with empty content -/

/-- C3 (counterexample): a raw item whose prompt is the single space `" "`
trims to the empty string, yet normalization keeps it — the normalized
output contains a record whose content trims to empty, contradicting the
claim that such items are discarded. -/
theorem c3_counterexample :
    processPromptData strictHost [itemP "r1" " "]
      = [⟨"r1", " ", "其他", [], "", "", [], [], 0, true, "", ""⟩] ∧
    jsTrim " " = "" :=
  ⟨rfl, rfl⟩

/-- C3 (amended): normalization discards exactly the raw items whose
prompt field is missing or the empty string (JS-falsy, with no trimming):
every normalized record has a non-empty (though possibly whitespace-only)
prompt, and a missing/empty-prompt item contributes nothing to the
output. -/
theorem c3_empty_discard (h : Host) (items : List RawItem) (item : RawItem)
    (p : Prompt) (hmem : p ∈ processPromptData h items)
    (hempty : item.prompt = none ∨ item.prompt = some "") :
    p.prompt ≠ "" ∧ processPromptData h (item :: items) = processPromptData h items := by
  constructor
  · intro he
    have hf := (List.mem_filter.mp hmem).2
    rw [he] at hf
    exact absurd hf (by decide)
  · have hfalse : (normalizeItem h item).prompt = "" := by
      rcases hempty with h₁ | h₁ <;> simp [normalizeItem, jsOrStr, h₁]
    have hpred : (!(normalizeItem h item).prompt.isEmpty) = false := by
      rw [hfalse]; decide
    unfold processPromptData
    rw [List.map_cons, List.filter_cons_of_neg (by simp [hpred])]

/-- C3 witness. -/
theorem c3_empty_discard_witness :
    (⟨"r1", "p1", "其他", [], "", "", [], [], 0, true, "", ""⟩ : Prompt).prompt ≠ "" ∧
    processPromptData strictHost (itemP "r0" "" :: [itemP "r1" "p1"])
      = processPromptData strictHost [itemP "r1" "p1"] :=
  c3_empty_discard strictHost [itemP "r1" "p1"] (itemP "r0" "")
    ⟨"r1", "p1", "其他", [], "", "", [], [], 0, true, "", ""⟩
    (by decide) (Or.inr rfl)

/-! ## C4 — where the variables list comes from -/

/-- C4 (counterexample): a record whose content is
`"Hi \x7b\x7bname\x7d\x7d"` but whose raw variables field is absent is
normalized with an empty variables list, while the spec's described
extraction yields the one-entry list for `name` — the normalizer does not
scan content for placeholders. -/
theorem c4_counterexample :
    (processPromptData strictHost [itemP "r1" "Hi \x7b\x7bname\x7d\x7d"]).map
        Prompt.«variables» = [[]] ∧
    extractVariablesSpec "Hi \x7b\x7bname\x7d\x7d" = [.objV "name" "" "" true] ∧
    ([] : List VarValue) ≠ [.objV "name" "" "" true] :=
  ⟨rfl, rfl, by decide⟩

/-- C4 (amended): the normalizer's variables list is computed from the raw
item's `variables` field alone (absent field → empty list) and never from
the content: two items differing only in their content receive identical
variables lists, whatever placeholders the content holds. -/
theorem c4_variables_from_field (h : Host) (item : RawItem) (c₁ c₂ : String)
    (h₁ : c₁ ≠ "") (h₂ : c₂ ≠ "") :
    (processPromptData h [{ item with prompt := some c₁ }]).map Prompt.«variables»
      = (processPromptData h [{ item with prompt := some c₂ }]).map Prompt.«variables» ∧
    parseVariables h.jsonParseVars .undef = [] ∧
    (processPromptData h [{ item with
        prompt := some c₁
        «variables» := .undef }]).map Prompt.«variables» = [[]] := by
  have e₁ := isEmpty_false_of_ne c₁ h₁
  have e₂ := isEmpty_false_of_ne c₂ h₂
  refine ⟨?_, rfl, ?_⟩ <;>
    simp [processPromptData, normalizeItem, jsOrStr, parseVariables, e₁, e₂]

/-- C4 witness. -/
theorem c4_variables_from_field_witness :
    (processPromptData strictHost
        [{ itemP "r" "x" with prompt := some "Hi \x7b\x7bname\x7d\x7d" }]).map
        Prompt.«variables»
      = (processPromptData strictHost
          [{ itemP "r" "x" with prompt := some "plain" }]).map Prompt.«variables» ∧
    parseVariables strictHost.jsonParseVars .undef = [] ∧
    (processPromptData strictHost
        [{ itemP "r" "x" with
            prompt := some "Hi \x7b\x7bname\x7d\x7d"
            «variables» := .undef }]).map Prompt.«variables» = [[]] :=
  c4_variables_from_field strictHost (itemP "r" "x") "Hi \x7b\x7bname\x7d\x7d" "plain"
    (by decide) (by decide)

/-! ## C5 — lazy eviction of expired cache entries -/

/-- C5 (counterexample): after `setCache("k", "v")` at time 0 with a cache
TTL of 1000ms, `getCache` at time 1101 returns null — but the durable
storage still contains the key (`getCache` never persists the deletion),
contradicting the claim that the underlying storage no longer holds it. -/
theorem c5_counterexample :
    (getCache ⟨7200000, 1000, 500, 20000, 18000⟩ 1101
        (setCache (⟨[], none⟩ : CacheState String) "k" "v" 0) "k").2 = none ∧
    (getCache ⟨7200000, 1000, 500, 20000, 18000⟩ 1101
        (setCache (⟨[], none⟩ : CacheState String) "k" "v" 0) "k").1.durable
      = some [("k", ⟨"v", 0⟩)] ∧
    alookup "k" [("k", (⟨"v", 0⟩ : CacheEntryV String))] = some ⟨"v", 0⟩ :=
  ⟨rfl, rfl, rfl⟩

/-- C5 (amended): once the entry's TTL (the global `CONFIG.CACHE_DURATION`;
`setCache` takes no per-entry TTL) has elapsed, `getCache(key)` returns
null and deletes the entry from the in-memory copy only — the durable
storage still contains the key, exactly as `setCache` wrote it. -/
theorem c5_lazy_evict_memory_only {α : Type} (cfg : Config) (st : CacheState α)
    (key : String) (v : α) (t₀ t₁ : Int)
    (hexp : isExpired t₀ cfg.CACHE_DURATION t₁ = true) :
    (getCache cfg t₁ (setCache st key v t₀) key).2 = none ∧
    alookup key (getCache cfg t₁ (setCache st key v t₀) key).1.mem = none ∧
    (getCache cfg t₁ (setCache st key v t₀) key).1.durable
      = some (aset key ⟨v, t₀⟩ st.mem) ∧
    alookup key (aset key ⟨v, t₀⟩ st.mem) = some ⟨v, t₀⟩ := by
  have hM : getCache cfg t₁ (setCache st key v t₀) key
      = (⟨aerase key (aset key ⟨v, t₀⟩ st.mem), some (aset key ⟨v, t₀⟩ st.mem)⟩, none) := by
    simp [getCache, setCache, alookup_aset, hexp]
  rw [hM]
  exact ⟨rfl, alookup_aerase _ _, rfl, alookup_aset _ _ _⟩

/-- C5 witness. -/
theorem c5_lazy_evict_memory_only_witness :
    (getCache cfgW 400000
        (setCache (⟨[("j", ⟨"w", 5⟩)], none⟩ : CacheState String) "k" "v" 0) "k").2 = none ∧
    alookup "k" (getCache cfgW 400000
        (setCache (⟨[("j", ⟨"w", 5⟩)], none⟩ : CacheState String) "k" "v" 0) "k").1.mem = none ∧
    (getCache cfgW 400000
        (setCache (⟨[("j", ⟨"w", 5⟩)], none⟩ : CacheState String) "k" "v" 0) "k").1.durable
      = some (aset "k" ⟨"v", 0⟩ [("j", ⟨"w", 5⟩)]) ∧
    alookup "k" (aset "k" (⟨"v", 0⟩ : CacheEntryV String) [("j", ⟨"w", 5⟩)]) = some ⟨"v", 0⟩ :=
  c5_lazy_evict_memory_only cfgW ⟨[("j", ⟨"w", 5⟩)], none⟩ "k" "v" 0 400000 (by decide)

/-! ## C6 — stale-serve on failed refresh -/

/-- C6 (confirmed): given a non-empty permanent snapshot, a manual refresh
whose remote fetch failed reports failure, leaves the stored state
untouched, and subsequent cache searches return exactly what they returned
before the refresh. -/
theorem c6_stale_serve (st : BgState) (msg : String) (now : Int) (d : PermanentData)
    (kw fcat : Option String) (maxResults : Nat)
    (hperm : st.permanent = some d) (hne : d.prompts ≠ []) :
    (handleManualRefresh st (.err msg) now).2 = .fail msg ∧
    (handleManualRefresh st (.err msg) now).1 = st ∧
    searchInCache (handleManualRefresh st (.err msg) now).1 kw fcat maxResults
      = searchInCache st kw fcat maxResults :=
  ⟨rfl, rfl, rfl⟩

/-- A sample normalized prompt. -/
def promptW : Prompt := ⟨"p1", "hello", "cat", [], "", "", [], [], 0, true, "", ""⟩

/-- A background-storage state holding a one-record permanent snapshot. -/
def bgStW : BgState := ⟨some ⟨[promptW], 1, 100⟩, [], some 100⟩

/-- C6 witness. -/
theorem c6_stale_serve_witness :
    (handleManualRefresh bgStW (.err "connection reset") 200).2 = .fail "connection reset" ∧
    (handleManualRefresh bgStW (.err "connection reset") 200).1 = bgStW ∧
    searchInCache (handleManualRefresh bgStW (.err "connection reset") 200).1
        (some "he") none 5
      = searchInCache bgStW (some "he") none 5 :=
  c6_stale_serve bgStW "connection reset" 200 ⟨[promptW], 1, 100⟩ (some "he") none 5
    rfl (by decide)

/-! ## C7 — token caching idempotence -/

/-- C7 (confirmed): starting with no cached token, a first `getAccessToken`
call performs exactly one auth request and caches the token; a second call
before expiry performs zero further requests and returns the identical
token, leaving the state unchanged — one network call in total. -/
theorem c7_token_idempotent (cfg : Config) (fc₁ fc₂ : FeishuConfig)
    (now₁ now₂ : Int) (r₁ r₂ : AuthResponse) (st : ServiceState) (tok : String)
    (hst : st.accessToken = none)
    (hr : r₁.code = 0) (htk : r₁.tenant_access_token = some tok) (hne : tok ≠ "")
    (hexp : isExpired now₁ cfg.TOKEN_CACHE_DURATION now₂ = false) :
    getAccessToken cfg fc₁ now₁ r₁ st = (⟨some tok, now₁⟩, 1, .ok tok) ∧
    getAccessToken cfg fc₂ now₂ r₂ ⟨some tok, now₁⟩ = (⟨some tok, now₁⟩, 0, .ok tok) := by
  constructor
  · have hacq : acquireToken now₁ r₁ st = (⟨some tok, now₁⟩, 1, .ok tok) := by
      unfold acquireToken
      rw [htk]
      simp [hr, isEmpty_false_of_ne tok hne]
    simp [getAccessToken, hst, hacq]
  · exact getAccessToken_cached cfg fc₂ now₂ r₂ tok now₁ hne hexp

/-- C7 witness. -/
theorem c7_token_idempotent_witness :
    getAccessToken cfgW fcW 50 ⟨0, "ok", some "tokZ"⟩ ⟨none, 0⟩
      = (⟨some "tokZ", 50⟩, 1, .ok "tokZ") ∧
    getAccessToken cfgW fcW 60 authOk ⟨some "tokZ", 50⟩
      = (⟨some "tokZ", 50⟩, 0, .ok "tokZ") :=
  c7_token_idempotent cfgW fcW fcW 50 60 ⟨0, "ok", some "tokZ"⟩ authOk ⟨none, 0⟩ "tokZ"
    rfl rfl rfl (by decide) (by decide)

/-! ## C8 — where config validation happens -/

/-- C8 (counterexample): with both app id and secret empty,
`getAccessToken` still issues one auth network request, and the failure it
surfaces is `AUTH_ERROR` built from the remote's reply — not a
`CONFIG_ERROR` raised before any network call, as the claim states. -/
theorem c8_counterexample :
    getAccessToken cfgW ⟨"", "", "", ""⟩ 0 ⟨999, "app not found", none⟩ ⟨none, 0⟩
      = (⟨none, 0⟩, 1, .error ⟨"获取访问令牌失败: app not found", .AUTH_ERROR⟩) ∧
    (1 : Nat) ≠ 0 ∧ ErrorCode.AUTH_ERROR ≠ .CONFIG_ERROR :=
  ⟨rfl, by decide, by decide⟩

/-- C8 (amended): `getAccessToken` performs no configuration validation —
with a missing app id it still issues the auth request and surfaces the
remote rejection as `AUTH_ERROR`; the missing-credentials check lives only
in `testConnection`, which returns a config-invalid result before any
network call (zero requests). -/
theorem c8_no_validation_in_gettoken (cfg : Config) (appIdTest : String → Bool)
    (fc : FeishuConfig) (now : Int) (authResp : AuthResponse)
    (pageResp : ApiResponse) (st : ServiceState)
    (hid : fc.appId = "") (hst : st.accessToken = none)
    (hnotok : authResp.tenant_access_token = none) :
    testConnection cfg appIdTest fc now authResp pageResp st
      = (st, 0, .configInvalid (validateFeishuConfig appIdTest fc).errors) ∧
    getAccessToken cfg fc now authResp st
      = (st, 1, .error (mkHandledErr ("获取访问令牌失败: " ++ authResp.msg) .AUTH_ERROR)) := by
  constructor
  · have hv : (validateFeishuConfig appIdTest fc).isValid = false := by
      cases hs : fc.appSecret.isEmpty <;>
        simp [validateFeishuConfig, hid, hs, show ("" : String).isEmpty = true from rfl]
    simp [testConnection, hv]
  · have hacq : acquireToken now authResp st
        = (st, 1, .error (mkHandledErr ("获取访问令牌失败: " ++ authResp.msg) .AUTH_ERROR)) := by
      unfold acquireToken
      rw [hnotok]
    simp [getAccessToken, hst, hacq]

/-- C8 witness. -/
theorem c8_no_validation_in_gettoken_witness :
    testConnection cfgW (fun _ => true) ⟨"", "s", "b", "t"⟩ 0 ⟨999, "no", none⟩
        okPage1 ⟨none, 0⟩
      = (⟨none, 0⟩, 0,
         .configInvalid (validateFeishuConfig (fun _ => true) ⟨"", "s", "b", "t"⟩).errors) ∧
    getAccessToken cfgW ⟨"", "s", "b", "t"⟩ 0 ⟨999, "no", none⟩ ⟨none, 0⟩
      = (⟨none, 0⟩, 1, .error (mkHandledErr ("获取访问令牌失败: " ++ "no") .AUTH_ERROR)) :=
  c8_no_validation_in_gettoken cfgW (fun _ => true) ⟨"", "s", "b", "t"⟩ 0
    ⟨999, "no", none⟩ okPage1 ⟨none, 0⟩ rfl rfl rfl

/-! ## C9 — the shape of parsed tags -/

/-- C9 (counterexample): an array input is returned as-is by `parseTags`,
so the output can hold an empty element and an untrimmed element —
contradicting the claim that every accepted input yields trimmed, non-empty
strings. -/
theorem c9_counterexample :
    parseTags (.arr ["", " x "]) = ["", " x "] ∧
    ("" : String) ∈ parseTags (.arr ["", " x "]) ∧
    jsTrim " x " ≠ " x " :=
  ⟨rfl, by decide, by decide⟩

/-- C9 (amended): only the comma-separated-string branch of `parseTags`
trims and filters — its elements are always trimmed and non-empty; an
array input is returned unchanged (untrimmed, unfiltered), and falsy or
other-typed inputs yield the empty list. -/
theorem c9_parse_tags (s t : String) (xs : List String)
    (ht : t ∈ parseTags (.str s)) :
    (t ≠ "" ∧ jsTrim t = t) ∧ parseTags (.arr xs) = xs ∧
    parseTags .undef = ([] : List String) ∧ parseTags .other = ([] : List String) := by
  refine ⟨?_, rfl, rfl, rfl⟩
  cases hb : s.isEmpty with
  | true =>
      rw [show parseTags (.str s) = [] by simp [parseTags, hb]] at ht
      cases ht
  | false =>
      have ht' : t ∈ ((jsSplit s ',').map jsTrim).filter (fun u => !u.isEmpty) := by
        simpa [parseTags, hb] using ht
      obtain ⟨hmm, hne⟩ := List.mem_filter.mp ht'
      obtain ⟨u, _, hu⟩ := List.mem_map.mp hmm
      constructor
      · intro he
        rw [he] at hne
        exact absurd hne (by decide)
      · rw [← hu, jsTrim_idem]

/-- C9 witness. -/
theorem c9_parse_tags_witness :
    (("a" : String) ≠ "" ∧ jsTrim "a" = "a") ∧ parseTags (.arr [" x "]) = [" x "] ∧
    parseTags .undef = ([] : List String) ∧ parseTags .other = ([] : List String) :=
  c9_parse_tags " a ,b" "a" [" x "] (by decide)

/-! ## C10 — the recent-prompts list invariant -/

/-- C10 (counterexample): if the prior stored list already holds two
entries with the same id (different from the added prompt's), both survive
`addRecentPrompt` — the claim's "no two entries with the same id" fails for
that prior list. -/
theorem c10_counterexample :
    (addRecentPrompt 10 5 [⟨"a", "x", "c", 0⟩, ⟨"a", "y", "c", 1⟩] "b" "p" "c").map
        RecentEntry.id = ["b", "a", "a"] ∧
    ¬ ((addRecentPrompt 10 5 [⟨"a", "x", "c", 0⟩, ⟨"a", "y", "c", 1⟩] "b" "p" "c").map
        RecentEntry.id).Nodup :=
  ⟨rfl, by decide⟩

/-- C10 (amended): provided the prior stored list has pairwise-distinct ids
and `settings.maxRecentItems ≥ 1`, after `addRecentPrompt` the stored list
has no two entries with the same id, starts with the newly added prompt's
id, and never exceeds `maxRecentItems` entries. -/
theorem c10_recent_invariant (maxRecentItems : Nat) (now : Int)
    (recent : List RecentEntry) (pid pprompt pcategory : String)
    (hnodup : (recent.map RecentEntry.id).Nodup) (hmax : 1 ≤ maxRecentItems) :
    ((addRecentPrompt maxRecentItems now recent pid pprompt pcategory).map
        RecentEntry.id).Nodup ∧
    (addRecentPrompt maxRecentItems now recent pid pprompt pcategory).head?.map
        RecentEntry.id = some pid ∧
    (addRecentPrompt maxRecentItems now recent pid pprompt pcategory).length
      ≤ maxRecentItems := by
  obtain ⟨m, rfl⟩ : ∃ m, maxRecentItems = m + 1 := ⟨maxRecentItems - 1, by omega⟩
  unfold addRecentPrompt
  refine ⟨?_, ?_, ?_⟩
  · have hsub : List.Sublist (recent.filter (fun item => item.id != pid)) recent :=
      List.filter_sublist _
    have hnf : ((recent.filter (fun item => item.id != pid)).map RecentEntry.id).Nodup :=
      hnodup.sublist (hsub.map RecentEntry.id)
    have hnotin : pid ∉ (recent.filter (fun item => item.id != pid)).map RecentEntry.id := by
      intro hmem
      obtain ⟨x, hx, hxid⟩ := List.mem_map.mp hmem
      have hne := List.of_mem_filter hx
      simp [hxid] at hne
    have hnodup₂ : (((⟨pid, pprompt, pcategory, now⟩ : RecentEntry) ::
        recent.filter (fun item => item.id != pid)).map RecentEntry.id).Nodup := by
      rw [List.map_cons]
      exact List.nodup_cons.mpr ⟨hnotin, hnf⟩
    exact List.Nodup.sublist ((List.take_sublist _ _).map _) hnodup₂
  · rw [List.take_succ_cons]
    rfl
  · exact List.length_take_le _ _

/-- C10 witness. -/
theorem c10_recent_invariant_witness :
    ((addRecentPrompt 2 9 [⟨"a", "x", "c", 0⟩] "b" "p" "c").map RecentEntry.id).Nodup ∧
    (addRecentPrompt 2 9 [⟨"a", "x", "c", 0⟩] "b" "p" "c").head?.map
        RecentEntry.id = some "b" ∧
    (addRecentPrompt 2 9 [⟨"a", "x", "c", 0⟩] "b" "p" "c").length ≤ 2 :=
  c10_recent_invariant 2 9 [⟨"a", "x", "c", 0⟩] "b" "p" "c" (by decide) (by decide)

end PromptMaster
